import Mathlib

/-!
Verification of the deadline-aware packet scheduler and wire framing of the
ESP32 station sender (`c3_wifi_station/main/station_example_main.c`).
The definitions below are a shallow embedding of that C source: per-class
FIFO queues, `scheduler_submit_packet`, `find_earliest_deadline`, the
per-tick assembly loop of `process_packets`, and the 802.11 MAC header
layout built by `send_data_packet`.  Machine integers are modelled as `Nat`
with explicit reductions modulo `2^16` / `2^32` where the C code narrows.
-/

namespace PacketSched

/-- `data_type_t` from `terminal_cmd.h`: INT8, INT16, INT32, FLOAT, DOUBLE. -/
inductive DataType
  | i8
  | i16
  | i32
  | f32
  | f64
deriving DecidableEq, Repr

/-- Element width in bytes per data type (the `switch` in
`scheduler_submit_packet`: 1, 2, 4, 4, 8). -/
def typeSize : DataType → Nat
  | .i8 => 1
  | .i16 => 2
  | .i32 => 4
  | .f32 => 4
  | .f64 => 8

def MAX_CLASSES : Nat := 4

def MAX_PACKET_SIZE : Nat := 1400

def MAX_QUEUE_SIZE : Nat := 50

def MAX_TX_SIZE : Nat := 1400

def UINT32_MAX : Nat := 2 ^ 32 - 1

def U16_MOD : Nat := 2 ^ 16

def U32_MOD : Nat := 2 ^ 32

/-- `queue_packet_t`: one enqueued sample.  `data` holds the bytes that were
copied into the fixed 1400-byte buffer; bytes beyond `data.length` are zero
(the C struct is zero-initialized). -/
structure QueuePacket where
  class_id : Nat
  deadline : Nat
  data_type : DataType
  data_count : Nat
  size : Nat
  data : List Nat
deriving DecidableEq, Repr

/-- The `size` bytes that `memcpy(data_ptr, packet.data, packet.size)` copies
out of the packet's zero-initialized 1400-byte buffer. -/
def payloadBytes (p : QueuePacket) : List Nat :=
  (p.data ++ List.replicate p.size 0).take p.size

/-- `queue_enqueue`: append at the tail unless the queue already holds
`MAX_QUEUE_SIZE` packets. -/
def queue_enqueue (q : List QueuePacket) (p : QueuePacket) :
    Option (List QueuePacket) :=
  if MAX_QUEUE_SIZE ≤ q.length then none else some (q ++ [p])

/-- `esp_err_t` values that `scheduler_submit_packet` can return. -/
inductive EspErr
  | ok
  | invalidArg
  | fail
deriving DecidableEq, Repr

/-- `scheduler_context_t`: the four class queues, per-class configuration and
the statistics counters. -/
structure SchedulerCtx where
  packet_queues : List (List QueuePacket)
  class_types : List DataType
  class_deadlines : List Nat
  processing_threshold : Nat
  packets_processed : Nat
  packets_transmitted : Nat
  deadline_misses : Nat
  current_time_ms : Nat
deriving DecidableEq, Repr

/-- `scheduler_ctx.packet_queues[c]`. -/
def queueOf (ctx : SchedulerCtx) (c : Nat) : List QueuePacket :=
  ctx.packet_queues.getD c []

/-- `scheduler_ctx.class_types[c]`. -/
def typeOf (ctx : SchedulerCtx) (c : Nat) : DataType :=
  ctx.class_types.getD c DataType.i8

/-- `scheduler_submit_packet(class_id, data, count)`.  The C parameter
`count` is a `uint16_t` and `total_size` is a `uint16_t`, so the product
`element_size * count` is truncated modulo `2^16` before the
`MAX_PACKET_SIZE` check.  The deadline is the `uint32_t` sum of the current
time and the configured class deadline. -/
def scheduler_submit_packet (ctx : SchedulerCtx) (class_id : Nat)
    (data : List Nat) (count : Nat) (now : Nat) : EspErr × SchedulerCtx :=
  if MAX_CLASSES ≤ class_id then (.invalidArg, ctx)
  else
    let cnt := count % U16_MOD
    let data_type := typeOf ctx class_id
    let total_size := typeSize data_type * cnt % U16_MOD
    if MAX_PACKET_SIZE < total_size then (.invalidArg, ctx)
    else
      let packet : QueuePacket :=
        { class_id := class_id
          deadline := (now + ctx.class_deadlines.getD class_id 0) % U32_MOD
          data_type := data_type
          data_count := cnt
          size := total_size
          data := data.take total_size }
      match queue_enqueue (queueOf ctx class_id) packet with
      | some q => (.ok, { ctx with packet_queues := ctx.packet_queues.set class_id q })
      | none => (.fail, ctx)

/-- One step of the `find_earliest_deadline` loop: compare the front
packet's deadline (if any) with the accumulator. -/
def minFrontStep (acc : Nat) (q : List QueuePacket) : Nat :=
  match q with
  | [] => acc
  | p :: _ => if p.deadline < acc then p.deadline else acc

def minFrontFold (qs : List (List QueuePacket)) (acc : Nat) : Nat :=
  qs.foldl minFrontStep acc

/-- `find_earliest_deadline`: the minimum front-of-queue deadline over the
four class queues, with `UINT32_MAX` as the "no packets" sentinel. -/
def find_earliest_deadline (ctx : SchedulerCtx) : Nat :=
  minFrontFold [queueOf ctx 0, queueOf ctx 1, queueOf ctx 2, queueOf ctx 3]
    UINT32_MAX

/-- Result of draining one class queue inside `process_packets`:
the packets copied into the buffer (`included`), the packets discarded as
deadline misses (`missed`), what is left of the queue (`rest`), the updated
`remaining_space`, and the bytes written so far (`buf`). -/
structure DrainRes where
  included : List QueuePacket
  missed : List QueuePacket
  rest : List QueuePacket
  remaining : Nat
  buf : List Nat
deriving DecidableEq, Repr

/-- The inner `while (queue_peek(...))` loop of `process_packets` for one
class: peek; stop if the front packet does not fit; otherwise dequeue it;
discard it as a miss if `current_time > deadline`; otherwise copy its bytes,
shrink `remaining_space`, and stop the class once fewer than 100 bytes
remain. -/
def drainClass (now : Nat) : List QueuePacket → Nat → List Nat → DrainRes
  | [], rem, buf => ⟨[], [], [], rem, buf⟩
  | p :: rest, rem, buf =>
    if rem < p.size then ⟨[], [], p :: rest, rem, buf⟩
    else if p.deadline < now then
      let r := drainClass now rest rem buf
      ⟨r.included, p :: r.missed, r.rest, r.remaining, r.buf⟩
    else
      let rem2 := rem - p.size
      let buf2 := buf ++ payloadBytes p
      if rem2 < 100 then ⟨[p], [], rest, rem2, buf2⟩
      else
        let r := drainClass now rest rem2 buf2
        ⟨p :: r.included, r.missed, r.rest, r.remaining, r.buf⟩

/-- Results of the fixed-class-order assembly loop, class 0 to class 3. -/
structure AsmRes where
  r0 : DrainRes
  r1 : DrainRes
  r2 : DrainRes
  r3 : DrainRes
deriving DecidableEq, Repr

/-- The `for (class_id = 0; class_id < MAX_CLASSES; class_id++)` assembly
loop of `process_packets`: the buffer cursor and `remaining_space` are
threaded through the classes in the fixed order 0, 1, 2, 3. -/
def tickAssembly (ctx : SchedulerCtx) (now : Nat) : AsmRes :=
  let r0 := drainClass now (queueOf ctx 0) MAX_TX_SIZE []
  let r1 := drainClass now (queueOf ctx 1) r0.remaining r0.buf
  let r2 := drainClass now (queueOf ctx 2) r1.remaining r1.buf
  let r3 := drainClass now (queueOf ctx 3) r2.remaining r2.buf
  ⟨r0, r1, r2, r3⟩

def AsmRes.missCount (a : AsmRes) : Nat :=
  a.r0.missed.length + a.r1.missed.length + a.r2.missed.length +
    a.r3.missed.length

def AsmRes.incCount (a : AsmRes) : Nat :=
  a.r0.included.length + a.r1.included.length + a.r2.included.length +
    a.r3.included.length

def AsmRes.includedAll (a : AsmRes) : List QueuePacket :=
  a.r0.included ++ a.r1.included ++ a.r2.included ++ a.r3.included

def AsmRes.missedAll (a : AsmRes) : List QueuePacket :=
  a.r0.missed ++ a.r1.missed ++ a.r2.missed ++ a.r3.missed

/-- `class_counts[class_id] += packet.data_count` accumulated over a class's
included packets; `class_counts` entries are `uint8_t`, so every addition is
reduced modulo 256. -/
def countsOf (l : List QueuePacket) : Nat :=
  l.foldl (fun a p => (a + p.data_count) % 256) 0

/-- Number of classes with a nonzero `class_counts` entry (the increment
applied to `packets_transmitted` after a successful send). -/
def nonzeroClassCount (counts : List Nat) : Nat :=
  counts.foldl (fun a c => a + if 0 < c then 1 else 0) 0

/-- `data_packet_header_t` plus the payload actually handed to
`esp_wifi_80211_tx`: what the sender emits in one frame. -/
structure Frame where
  class_counts : List Nat
  class_types : List DataType
  total_size : Nat
  timestamp : Nat
  payload : List Nat
deriving DecidableEq, Repr

/-- `process_packets` for one scheduler tick at time `now`.  Returns the
updated context and the frame handed to transmission, if any.  `txOk`
abstracts the success of `esp_wifi_80211_tx`; only `packets_transmitted`
depends on it.  The two early returns (no packets; earliest deadline beyond
`now + processing_threshold`) leave everything but `current_time_ms`
untouched. -/
def process_packets (ctx : SchedulerCtx) (now : Nat) (txOk : Bool) :
    SchedulerCtx × Option Frame :=
  let ctx0 := { ctx with current_time_ms := now }
  let earliest := find_earliest_deadline ctx
  if earliest = UINT32_MAX then (ctx0, none)
  else if (now + ctx.processing_threshold) % U32_MOD < earliest then
    (ctx0, none)
  else
    let a := tickAssembly ctx now
    let ctx1 :=
      { ctx0 with
        packet_queues :=
          ((((ctx.packet_queues.set 0 a.r0.rest).set 1 a.r1.rest).set 2
              a.r2.rest).set 3 a.r3.rest)
        deadline_misses := ctx.deadline_misses + a.missCount
        packets_processed := ctx.packets_processed + a.missCount + a.incCount }
    let actual := MAX_TX_SIZE - a.r3.remaining
    if 0 < actual then
      let size := if MAX_TX_SIZE < actual then MAX_TX_SIZE else actual
      let counts := [countsOf a.r0.included, countsOf a.r1.included,
        countsOf a.r2.included, countsOf a.r3.included]
      let f : Frame :=
        { class_counts := counts
          class_types := [typeOf ctx 0, typeOf ctx 1, typeOf ctx 2, typeOf ctx 3]
          total_size := size
          timestamp := now
          payload := a.r3.buf.take size }
      let ctx2 :=
        if txOk then
          { ctx1 with packets_transmitted :=
              ctx1.packets_transmitted + nonzeroClassCount counts }
        else ctx1
      (ctx2, some f)
    else (ctx1, none)

def BROADCAST_MAC : List Nat := List.replicate 6 255

/-- The 24-byte 802.11 header built by `send_data_packet`: frame control
`0x08 0x01`, zero duration, destination at offset 4 (AP BSSID, or broadcast
when `esp_wifi_sta_get_ap_info` fails), source at offset 10 (always the
station's own MAC), BSSID at offset 16 (again the AP BSSID or broadcast),
and a zero sequence field. -/
def macHeader (apBssid : Option (List Nat)) (ownMac : List Nat) : List Nat :=
  [8, 1, 0, 0]
    ++ (match apBssid with | some b => b | none => BROADCAST_MAC)
    ++ ownMac
    ++ (match apBssid with | some b => b | none => BROADCAST_MAC)
    ++ [0, 0]

/-- Total byte size of a list of packets. -/
def sumSizes (l : List QueuePacket) : Nat :=
  (l.map QueuePacket.size).sum

/-- Total element count of a list of packets. -/
def sumDataCounts (l : List QueuePacket) : Nat :=
  (l.map QueuePacket.data_count).sum

/-- Concatenation of the raw payload bytes of a list of packets. -/
def flatPayload (l : List QueuePacket) : List Nat :=
  l.foldr (fun p acc => payloadBytes p ++ acc) []

lemma sumSizes_nil : sumSizes [] = 0 := rfl

lemma sumSizes_cons (p : QueuePacket) (l : List QueuePacket) :
    sumSizes (p :: l) = p.size + sumSizes l := by
  simp [sumSizes]

lemma sumSizes_append (l₁ l₂ : List QueuePacket) :
    sumSizes (l₁ ++ l₂) = sumSizes l₁ + sumSizes l₂ := by
  simp [sumSizes]

lemma flatPayload_nil : flatPayload [] = [] := rfl

lemma flatPayload_cons (p : QueuePacket) (l : List QueuePacket) :
    flatPayload (p :: l) = payloadBytes p ++ flatPayload l := rfl

lemma flatPayload_append (l₁ l₂ : List QueuePacket) :
    flatPayload (l₁ ++ l₂) = flatPayload l₁ ++ flatPayload l₂ := by
  induction l₁ with
  | nil => simp [flatPayload_nil]
  | cons p l ih => simp [flatPayload_cons, ih]

lemma payloadBytes_length (p : QueuePacket) :
    (payloadBytes p).length = p.size := by
  simp [payloadBytes]

lemma flatPayload_length (l : List QueuePacket) :
    (flatPayload l).length = sumSizes l := by
  induction l with
  | nil => simp [flatPayload_nil, sumSizes_nil]
  | cons p l ih =>
    simp [flatPayload_cons, sumSizes_cons, payloadBytes_length, ih]

lemma drainClass_nil (now rem : Nat) (buf : List Nat) :
    drainClass now [] rem buf = ⟨[], [], [], rem, buf⟩ := rfl

lemma drainClass_cons (now : Nat) (p : QueuePacket) (rest : List QueuePacket)
    (rem : Nat) (buf : List Nat) :
    drainClass now (p :: rest) rem buf =
      if rem < p.size then ⟨[], [], p :: rest, rem, buf⟩
      else if p.deadline < now then
        let r := drainClass now rest rem buf
        ⟨r.included, p :: r.missed, r.rest, r.remaining, r.buf⟩
      else
        let rem2 := rem - p.size
        let buf2 := buf ++ payloadBytes p
        if rem2 < 100 then ⟨[p], [], rest, rem2, buf2⟩
        else
          let r := drainClass now rest rem2 buf2
          ⟨p :: r.included, r.missed, r.rest, r.remaining, r.buf⟩ := rfl

/-- Draining never creates bytes: the final `remaining_space` plus the bytes
of the included packets is the initial `remaining_space`. -/
lemma drainClass_remaining (now : Nat) (q : List QueuePacket) :
    ∀ rem buf, (drainClass now q rem buf).remaining +
      sumSizes (drainClass now q rem buf).included = rem := by
  induction q with
  | nil => intro rem buf; simp [drainClass_nil, sumSizes_nil]
  | cons p rest ih =>
    intro rem buf
    rw [drainClass_cons]
    by_cases h1 : rem < p.size
    · simp [h1, sumSizes_nil]
    · by_cases h2 : p.deadline < now
      · simp only [if_neg h1, if_pos h2]
        exact ih rem buf
      · simp only [if_neg h1, if_neg h2]
        by_cases h3 : rem - p.size < 100
        · simp only [if_pos h3]
          have hle : p.size ≤ rem := Nat.le_of_not_lt h1
          simp [sumSizes_cons, sumSizes_nil]
          omega
        · simp only [if_neg h3]
          have hle : p.size ≤ rem := Nat.le_of_not_lt h1
          have := ih (rem - p.size) (buf ++ payloadBytes p)
          simp only [sumSizes_cons]
          omega

/-- The bytes written by draining one class are exactly the previous buffer
followed by the included packets' payloads, in order. -/
lemma drainClass_buf (now : Nat) (q : List QueuePacket) :
    ∀ rem buf, (drainClass now q rem buf).buf =
      buf ++ flatPayload (drainClass now q rem buf).included := by
  induction q with
  | nil => intro rem buf; simp [drainClass_nil, flatPayload_nil]
  | cons p rest ih =>
    intro rem buf
    rw [drainClass_cons]
    by_cases h1 : rem < p.size
    · simp [h1, flatPayload_nil]
    · by_cases h2 : p.deadline < now
      · simp only [if_neg h1, if_pos h2]
        exact ih rem buf
      · simp only [if_neg h1, if_neg h2]
        by_cases h3 : rem - p.size < 100
        · simp [h3, flatPayload_cons, flatPayload_nil]
        · simp only [if_neg h3]
          have := ih (rem - p.size) (buf ++ payloadBytes p)
          simp [this, flatPayload_cons]

/-- Every packet copied into the buffer satisfies `now ≤ deadline`. -/
lemma drainClass_included_deadline (now : Nat) (q : List QueuePacket) :
    ∀ rem buf p, p ∈ (drainClass now q rem buf).included → now ≤ p.deadline := by
  induction q with
  | nil => intro rem buf p hp; simp [drainClass_nil] at hp
  | cons a rest ih =>
    intro rem buf p hp
    rw [drainClass_cons] at hp
    by_cases h1 : rem < a.size
    · simp [h1] at hp
    · by_cases h2 : a.deadline < now
      · simp only [if_neg h1, if_pos h2] at hp
        exact ih rem buf p hp
      · simp only [if_neg h1, if_neg h2] at hp
        by_cases h3 : rem - a.size < 100
        · simp [h3] at hp
          subst hp
          exact Nat.le_of_not_lt h2
        · simp only [if_neg h3, List.mem_cons] at hp
          rcases hp with hp | hp
          · subst hp; exact Nat.le_of_not_lt h2
          · exact ih (rem - a.size) (buf ++ payloadBytes a) p hp

/-- Every packet discarded as a deadline miss satisfies `deadline < now`. -/
lemma drainClass_missed_deadline (now : Nat) (q : List QueuePacket) :
    ∀ rem buf p, p ∈ (drainClass now q rem buf).missed → p.deadline < now := by
  induction q with
  | nil => intro rem buf p hp; simp [drainClass_nil] at hp
  | cons a rest ih =>
    intro rem buf p hp
    rw [drainClass_cons] at hp
    by_cases h1 : rem < a.size
    · simp [h1] at hp
    · by_cases h2 : a.deadline < now
      · simp only [if_neg h1, if_pos h2, List.mem_cons] at hp
        rcases hp with hp | hp
        · subst hp; exact h2
        · exact ih rem buf p hp
      · simp only [if_neg h1, if_neg h2] at hp
        by_cases h3 : rem - a.size < 100
        · simp [h3] at hp
        · simp only [if_neg h3] at hp
          exact ih (rem - a.size) (buf ++ payloadBytes a) p hp

/-- The included packets form a sublist of the class queue: queue (FIFO)
order is preserved. -/
lemma drainClass_included_sublist (now : Nat) (q : List QueuePacket) :
    ∀ rem buf, (drainClass now q rem buf).included.Sublist q := by
  induction q with
  | nil => intro rem buf; simp [drainClass_nil]
  | cons a rest ih =>
    intro rem buf
    rw [drainClass_cons]
    by_cases h1 : rem < a.size
    · simp [h1]
    · by_cases h2 : a.deadline < now
      · simp only [if_neg h1, if_pos h2]
        exact (ih rem buf).cons a
      · simp only [if_neg h1, if_neg h2]
        by_cases h3 : rem - a.size < 100
        · simp only [if_pos h3]
          exact (List.nil_sublist rest).cons₂ a
        · simp only [if_neg h3]
          exact (ih (rem - a.size) (buf ++ payloadBytes a)).cons₂ a

/-- `uint8_t` accumulation of `data_count` equals the plain sum reduced
modulo 256. -/
lemma countsOf_eq_sum_mod (l : List QueuePacket) :
    countsOf l = sumDataCounts l % 256 := by
  have key : ∀ (l : List QueuePacket) (a : Nat),
      l.foldl (fun a p => (a + p.data_count) % 256) (a % 256) =
        (a + sumDataCounts l) % 256 := by
    intro l
    induction l with
    | nil => intro a; simp [sumDataCounts]
    | cons p l ih =>
      intro a
      have h1 : (a % 256 + p.data_count) % 256 = (a + p.data_count) % 256 :=
        Nat.mod_add_mod a 256 p.data_count
      calc (p :: l).foldl (fun a p => (a + p.data_count) % 256) (a % 256)
          = l.foldl (fun a p => (a + p.data_count) % 256)
              ((a + p.data_count) % 256) := by
            simp [List.foldl_cons, h1]
        _ = (a + p.data_count + sumDataCounts l) % 256 := ih (a + p.data_count)
        _ = (a + sumDataCounts (p :: l)) % 256 := by
            simp [sumDataCounts, Nat.add_assoc]
  have := key l 0
  simpa [countsOf] using this

lemma mem_getD_lists (l : List (List QueuePacket)) (c : Nat) (p : QueuePacket)
    (hp : p ∈ l.getD c []) : ∃ q ∈ l, p ∈ q := by
  induction l generalizing c with
  | nil => simp [List.getD] at hp
  | cons q rest ih =>
    cases c with
    | zero =>
      simp only [List.getD_cons_zero] at hp
      exact ⟨q, List.mem_cons_self q rest, hp⟩
    | succ c =>
      simp only [List.getD_cons_succ] at hp
      obtain ⟨q2, hq2, hpq2⟩ := ih c hp
      exact ⟨q2, List.mem_cons_of_mem q hq2, hpq2⟩

/-- A packet found via `queueOf` lives in one of the context's queues. -/
lemma mem_of_mem_queueOf (ctx : SchedulerCtx) (c : Nat) (p : QueuePacket)
    (hp : p ∈ queueOf ctx c) : ∃ q ∈ ctx.packet_queues, p ∈ q :=
  mem_getD_lists ctx.packet_queues c p hp

lemma tickAssembly_remaining (ctx : SchedulerCtx) (now : Nat) :
    (tickAssembly ctx now).r3.remaining +
      sumSizes (tickAssembly ctx now).includedAll = MAX_TX_SIZE := by
  unfold tickAssembly AsmRes.includedAll
  have h0 := drainClass_remaining now (queueOf ctx 0) MAX_TX_SIZE []
  have h1 := drainClass_remaining now (queueOf ctx 1)
    (drainClass now (queueOf ctx 0) MAX_TX_SIZE []).remaining
    (drainClass now (queueOf ctx 0) MAX_TX_SIZE []).buf
  have h2 := drainClass_remaining now (queueOf ctx 2)
    (drainClass now (queueOf ctx 1)
      (drainClass now (queueOf ctx 0) MAX_TX_SIZE []).remaining
      (drainClass now (queueOf ctx 0) MAX_TX_SIZE []).buf).remaining
    (drainClass now (queueOf ctx 1)
      (drainClass now (queueOf ctx 0) MAX_TX_SIZE []).remaining
      (drainClass now (queueOf ctx 0) MAX_TX_SIZE []).buf).buf
  have h3 := drainClass_remaining now (queueOf ctx 3)
    (drainClass now (queueOf ctx 2)
      (drainClass now (queueOf ctx 1)
        (drainClass now (queueOf ctx 0) MAX_TX_SIZE []).remaining
        (drainClass now (queueOf ctx 0) MAX_TX_SIZE []).buf).remaining
      (drainClass now (queueOf ctx 1)
        (drainClass now (queueOf ctx 0) MAX_TX_SIZE []).remaining
        (drainClass now (queueOf ctx 0) MAX_TX_SIZE []).buf).buf).remaining
    (drainClass now (queueOf ctx 2)
      (drainClass now (queueOf ctx 1)
        (drainClass now (queueOf ctx 0) MAX_TX_SIZE []).remaining
        (drainClass now (queueOf ctx 0) MAX_TX_SIZE []).buf).remaining
      (drainClass now (queueOf ctx 1)
        (drainClass now (queueOf ctx 0) MAX_TX_SIZE []).remaining
        (drainClass now (queueOf ctx 0) MAX_TX_SIZE []).buf).buf).buf
  simp only [sumSizes_append]
  omega

lemma tickAssembly_buf (ctx : SchedulerCtx) (now : Nat) :
    (tickAssembly ctx now).r3.buf =
      flatPayload (tickAssembly ctx now).includedAll := by
  unfold tickAssembly AsmRes.includedAll
  have h0 := drainClass_buf now (queueOf ctx 0) MAX_TX_SIZE []
  have h1 := drainClass_buf now (queueOf ctx 1)
    (drainClass now (queueOf ctx 0) MAX_TX_SIZE []).remaining
    (drainClass now (queueOf ctx 0) MAX_TX_SIZE []).buf
  have h2 := drainClass_buf now (queueOf ctx 2)
    (drainClass now (queueOf ctx 1)
      (drainClass now (queueOf ctx 0) MAX_TX_SIZE []).remaining
      (drainClass now (queueOf ctx 0) MAX_TX_SIZE []).buf).remaining
    (drainClass now (queueOf ctx 1)
      (drainClass now (queueOf ctx 0) MAX_TX_SIZE []).remaining
      (drainClass now (queueOf ctx 0) MAX_TX_SIZE []).buf).buf
  have h3 := drainClass_buf now (queueOf ctx 3)
    (drainClass now (queueOf ctx 2)
      (drainClass now (queueOf ctx 1)
        (drainClass now (queueOf ctx 0) MAX_TX_SIZE []).remaining
        (drainClass now (queueOf ctx 0) MAX_TX_SIZE []).buf).remaining
      (drainClass now (queueOf ctx 1)
        (drainClass now (queueOf ctx 0) MAX_TX_SIZE []).remaining
        (drainClass now (queueOf ctx 0) MAX_TX_SIZE []).buf).buf).remaining
    (drainClass now (queueOf ctx 2)
      (drainClass now (queueOf ctx 1)
        (drainClass now (queueOf ctx 0) MAX_TX_SIZE []).remaining
        (drainClass now (queueOf ctx 0) MAX_TX_SIZE []).buf).remaining
      (drainClass now (queueOf ctx 1)
        (drainClass now (queueOf ctx 0) MAX_TX_SIZE []).remaining
        (drainClass now (queueOf ctx 0) MAX_TX_SIZE []).buf).buf).buf
  simp only [flatPayload_append]
  rw [h3, h2, h1, h0]
  simp [List.append_assoc]

lemma tickAssembly_buf_length (ctx : SchedulerCtx) (now : Nat) :
    (tickAssembly ctx now).r3.buf.length =
      MAX_TX_SIZE - (tickAssembly ctx now).r3.remaining := by
  have hb := tickAssembly_buf ctx now
  have hr := tickAssembly_remaining ctx now
  rw [hb, flatPayload_length]
  omega

/-- If every packet has at least one byte and the assembly wrote no bytes,
then no packet was included. -/
lemma includedAll_nil_of_no_bytes (ctx : SchedulerCtx) (now : Nat)
    (hwf : ∀ q ∈ ctx.packet_queues, ∀ p ∈ q, 1 ≤ p.size)
    (h0 : MAX_TX_SIZE - (tickAssembly ctx now).r3.remaining = 0) :
    (tickAssembly ctx now).incCount = 0 := by
  have hr := tickAssembly_remaining ctx now
  have hsum : sumSizes (tickAssembly ctx now).includedAll = 0 := by omega
  have hmem : ∀ p ∈ (tickAssembly ctx now).includedAll, 1 ≤ p.size := by
    intro p hp
    unfold AsmRes.includedAll at hp
    simp only [tickAssembly, List.mem_append] at hp
    have hq : ∃ c, p ∈ queueOf ctx c := by
      rcases hp with ((hp | hp) | hp) | hp
      · exact ⟨0, (drainClass_included_sublist now (queueOf ctx 0) _ _).subset hp⟩
      · exact ⟨1, (drainClass_included_sublist now (queueOf ctx 1) _ _).subset hp⟩
      · exact ⟨2, (drainClass_included_sublist now (queueOf ctx 2) _ _).subset hp⟩
      · exact ⟨3, (drainClass_included_sublist now (queueOf ctx 3) _ _).subset hp⟩
    obtain ⟨c, hc⟩ := hq
    obtain ⟨q, hq, hpq⟩ := mem_of_mem_queueOf ctx c p hc
    exact hwf q hq p hpq
  have hnil : (tickAssembly ctx now).includedAll = [] := by
    cases hl : (tickAssembly ctx now).includedAll with
    | nil => rfl
    | cons p rest =>
      have : 1 ≤ p.size := hmem p (by rw [hl]; exact List.mem_cons_self p rest)
      rw [hl, sumSizes_cons] at hsum
      omega
  unfold AsmRes.includedAll at hnil
  unfold AsmRes.incCount
  rcases List.append_eq_nil.mp hnil with ⟨h012, h3⟩
  rcases List.append_eq_nil.mp h012 with ⟨h01, h2⟩
  rcases List.append_eq_nil.mp h01 with ⟨hq0, hq1⟩
  rw [hq0, hq1, h2, h3]
  rfl

/-- Both early returns of `process_packets` only refresh `current_time_ms`. -/
lemma process_packets_early (ctx : SchedulerCtx) (now : Nat) (txOk : Bool)
    (h : find_earliest_deadline ctx = UINT32_MAX ∨
      (now + ctx.processing_threshold) % U32_MOD < find_earliest_deadline ctx) :
    process_packets ctx now txOk = ({ ctx with current_time_ms := now }, none) := by
  unfold process_packets
  by_cases h1 : find_earliest_deadline ctx = UINT32_MAX
  · simp [h1]
  · have h2 : (now + ctx.processing_threshold) % U32_MOD <
        find_earliest_deadline ctx := h.resolve_left h1
    simp [h1, h2]

/-- Characterization of an emitted frame: it is built from the tick's
assembly result, and some byte was written. -/
lemma process_packets_some (ctx : SchedulerCtx) (now : Nat) (txOk : Bool)
    (f : Frame) (hf : (process_packets ctx now txOk).2 = some f) :
    f = { class_counts := [countsOf (tickAssembly ctx now).r0.included,
            countsOf (tickAssembly ctx now).r1.included,
            countsOf (tickAssembly ctx now).r2.included,
            countsOf (tickAssembly ctx now).r3.included]
          class_types := [typeOf ctx 0, typeOf ctx 1, typeOf ctx 2, typeOf ctx 3]
          total_size := MAX_TX_SIZE - (tickAssembly ctx now).r3.remaining
          timestamp := now
          payload := (tickAssembly ctx now).r3.buf.take
            (MAX_TX_SIZE - (tickAssembly ctx now).r3.remaining) } ∧
      0 < MAX_TX_SIZE - (tickAssembly ctx now).r3.remaining := by
  unfold process_packets at hf
  by_cases h1 : find_earliest_deadline ctx = UINT32_MAX
  · simp [h1] at hf
  · by_cases h2 : (now + ctx.processing_threshold) % U32_MOD <
        find_earliest_deadline ctx
    · simp [h1, h2] at hf
    · by_cases h3 : 0 < MAX_TX_SIZE - (tickAssembly ctx now).r3.remaining
      · have hno : ¬ MAX_TX_SIZE < MAX_TX_SIZE - (tickAssembly ctx now).r3.remaining :=
          Nat.not_lt.mpr (Nat.sub_le _ _)
        simp only [h1, h2, h3, if_neg, if_pos, if_false, if_true] at hf
        simp [hno] at hf
        exact ⟨hf.symm, h3⟩
      · simp [h1, h2, h3] at hf

/-- Counter bookkeeping of an assembling tick: `packets_processed` grows by
the number of misses plus the number of included packets, and
`deadline_misses` grows by the number of misses. -/
lemma process_packets_counters (ctx : SchedulerCtx) (now : Nat) (txOk : Bool)
    (h1 : ¬ find_earliest_deadline ctx = UINT32_MAX)
    (h2 : ¬ (now + ctx.processing_threshold) % U32_MOD <
      find_earliest_deadline ctx) :
    (process_packets ctx now txOk).1.packets_processed =
        ctx.packets_processed + (tickAssembly ctx now).missCount +
          (tickAssembly ctx now).incCount ∧
      (process_packets ctx now txOk).1.deadline_misses =
        ctx.deadline_misses + (tickAssembly ctx now).missCount := by
  unfold process_packets
  by_cases h3 : 0 < MAX_TX_SIZE - (tickAssembly ctx now).r3.remaining
  · cases txOk <;> simp [h1, h2, h3]
  · simp [h1, h2, h3]

/-- A tick that writes no bytes hands nothing to transmission. -/
lemma process_packets_none_of_no_bytes (ctx : SchedulerCtx) (now : Nat)
    (txOk : Bool) (h0 : MAX_TX_SIZE - (tickAssembly ctx now).r3.remaining = 0) :
    (process_packets ctx now txOk).2 = none := by
  unfold process_packets
  by_cases h1 : find_earliest_deadline ctx = UINT32_MAX
  · simp [h1]
  · by_cases h2 : (now + ctx.processing_threshold) % U32_MOD <
        find_earliest_deadline ctx
    · simp [h1, h2]
    · simp [h1, h2, h0]

/-! Concrete scenarios used by counterexamples and witnesses. -/

/-- A single class-1 sample of 10 INT32 elements (40 bytes), deadline 3000. -/
def pktA : QueuePacket := ⟨0, 3000, .i32, 10, 40, List.replicate 40 7⟩

/-- Context holding only `pktA`, threshold 1000 (scenario S1 of the spec). -/
def ctxA : SchedulerCtx :=
  { packet_queues := [[pktA], [], [], []]
    class_types := [.i32, .i32, .i32, .i32]
    class_deadlines := [3000, 5000, 6000, 3000]
    processing_threshold := 1000
    packets_processed := 0
    packets_transmitted := 0
    deadline_misses := 0
    current_time_ms := 0 }

/-- The frame the sender emits from `ctxA` at tick time 2000. -/
def frameA : Frame :=
  { class_counts := [10, 0, 0, 0]
    class_types := [.i32, .i32, .i32, .i32]
    total_size := 40
    timestamp := 2000
    payload := List.replicate 40 7 }

/-- A sample whose deadline equals the tick time 2000. -/
def pktEq : QueuePacket := ⟨0, 2000, .i32, 1, 4, [1, 2, 3, 4]⟩

/-- A sample whose deadline 100 has passed at tick time 2000. -/
def pktMiss : QueuePacket := ⟨1, 100, .i32, 1, 4, [9, 9, 9, 9]⟩

def ctxB : SchedulerCtx :=
  { packet_queues := [[pktEq], [pktMiss], [], []]
    class_types := [.i32, .i32, .i32, .i32]
    class_deadlines := [3000, 5000, 6000, 3000]
    processing_threshold := 1000
    packets_processed := 0
    packets_transmitted := 0
    deadline_misses := 0
    current_time_ms := 0 }

/-- Empty context: class 1 configured as DOUBLE, all queues empty. -/
def ctx6 : SchedulerCtx :=
  { packet_queues := [[], [], [], []]
    class_types := [.f64, .i32, .i32, .i32]
    class_deadlines := [3000, 5000, 6000, 3000]
    processing_threshold := 1000
    packets_processed := 0
    packets_transmitted := 0
    deadline_misses := 0
    current_time_ms := 0 }

/-- A 500-byte sample, used against a buffer with only 400 bytes left. -/
def pktBig : QueuePacket := ⟨0, 9999, .i8, 500, 500, List.replicate 500 1⟩

/-! Claim theorems. -/

/-- C1, counterexample: at tick time 2000, `ctxA` emits one frame assembled
from exactly one class-1 sample of 10 INT32 elements, yet its
`class_counts` vector is `[10, 0, 0, 0]` — the element count, not the
number of samples `[1, 0, 0]` claimed. -/
theorem c1_class_counts_counterexample :
    (process_packets ctxA 2000 true).2.map Frame.class_counts =
        some [10, 0, 0, 0] ∧
      (tickAssembly ctxA 2000).incCount = 1 ∧
      ([10, 0, 0, 0] : List Nat) ≠ [1, 0, 0] ∧
      ([10, 0, 0, 0] : List Nat) ≠ [1, 0, 0, 0] := by
  decide

/-- C1, amended: each `class_counts[c]` of an emitted frame is the total
number of data elements (sum of `data_count`) of the class-`c` samples
included in the frame, reduced modulo 256 (`class_counts` is `uint8_t`). -/
theorem c1_frame_class_counts_element_totals (ctx : SchedulerCtx) (now : Nat)
    (txOk : Bool) (f : Frame)
    (hf : (process_packets ctx now txOk).2 = some f) :
    f.class_counts =
      [sumDataCounts (tickAssembly ctx now).r0.included % 256,
        sumDataCounts (tickAssembly ctx now).r1.included % 256,
        sumDataCounts (tickAssembly ctx now).r2.included % 256,
        sumDataCounts (tickAssembly ctx now).r3.included % 256] := by
  obtain ⟨hfeq, -⟩ := process_packets_some ctx now txOk f hf
  rw [hfeq]
  simp only [countsOf_eq_sum_mod]

theorem c1_frame_class_counts_element_totals_witness :
    frameA.class_counts =
      [sumDataCounts (tickAssembly ctxA 2000).r0.included % 256,
        sumDataCounts (tickAssembly ctxA 2000).r1.included % 256,
        sumDataCounts (tickAssembly ctxA 2000).r2.included % 256,
        sumDataCounts (tickAssembly ctxA 2000).r3.included % 256] :=
  c1_frame_class_counts_element_totals ctxA 2000 true frameA (by decide)

/-- C2: every sample copied into the assembly buffer at tick time `now`
satisfies `now ≤ deadline` (a deadline equal to `now` is not missed, the
miss test is strict), and every sample discarded as a deadline miss
satisfies `deadline < now`, so it is never transmitted. -/
theorem c2_deadline_discipline (ctx : SchedulerCtx) (now : Nat) :
    (∀ p ∈ (tickAssembly ctx now).includedAll, now ≤ p.deadline) ∧
      (∀ p ∈ (tickAssembly ctx now).missedAll, p.deadline < now) := by
  constructor
  · intro p hp
    unfold AsmRes.includedAll at hp
    simp only [tickAssembly, List.mem_append] at hp
    rcases hp with ((hp | hp) | hp) | hp
    · exact drainClass_included_deadline now (queueOf ctx 0) _ _ p hp
    · exact drainClass_included_deadline now (queueOf ctx 1) _ _ p hp
    · exact drainClass_included_deadline now (queueOf ctx 2) _ _ p hp
    · exact drainClass_included_deadline now (queueOf ctx 3) _ _ p hp
  · intro p hp
    unfold AsmRes.missedAll at hp
    simp only [tickAssembly, List.mem_append] at hp
    rcases hp with ((hp | hp) | hp) | hp
    · exact drainClass_missed_deadline now (queueOf ctx 0) _ _ p hp
    · exact drainClass_missed_deadline now (queueOf ctx 1) _ _ p hp
    · exact drainClass_missed_deadline now (queueOf ctx 2) _ _ p hp
    · exact drainClass_missed_deadline now (queueOf ctx 3) _ _ p hp

theorem c2_deadline_discipline_witness :
    (2000 : Nat) ≤ pktEq.deadline ∧ pktMiss.deadline < 2000 :=
  ⟨(c2_deadline_discipline ctxB 2000).1 pktEq (by decide),
    (c2_deadline_discipline ctxB 2000).2 pktMiss (by decide)⟩

/-- C3: every emitted frame carries between 1 and 1400 payload bytes
(`total_size` equals the payload length), and a tick whose assembly writes
zero bytes emits no frame. -/
theorem c3_frame_byte_cap (ctx : SchedulerCtx) (now : Nat) (txOk : Bool)
    (f : Frame) :
    ((process_packets ctx now txOk).2 = some f →
        1 ≤ f.total_size ∧ f.total_size ≤ MAX_TX_SIZE ∧
          f.payload.length = f.total_size) ∧
      (MAX_TX_SIZE - (tickAssembly ctx now).r3.remaining = 0 →
        (process_packets ctx now txOk).2 = none) := by
  constructor
  · intro hf
    obtain ⟨hfeq, hpos⟩ := process_packets_some ctx now txOk f hf
    have hlen := tickAssembly_buf_length ctx now
    rw [hfeq]
    refine ⟨hpos, Nat.sub_le _ _, ?_⟩
    simp [List.length_take, hlen]
  · exact process_packets_none_of_no_bytes ctx now txOk

theorem c3_frame_byte_cap_witness :
    (1 ≤ frameA.total_size ∧ frameA.total_size ≤ MAX_TX_SIZE ∧
        frameA.payload.length = frameA.total_size) ∧
      (process_packets ctx6 0 true).2 = none :=
  ⟨(c3_frame_byte_cap ctxA 2000 true frameA).1 (by decide),
    (c3_frame_byte_cap ctx6 0 true frameA).2 (by decide)⟩

/-- C4: the payload of an emitted frame is the concatenation, in the fixed
class order 1, 2, 3, random, of the raw payloads of the included samples,
and each class's included samples form a sublist of that class's queue, so
samples of one class appear contiguously in FIFO order with no
interleaving. -/
theorem c4_payload_class_order (ctx : SchedulerCtx) (now : Nat) (txOk : Bool)
    (f : Frame) (hf : (process_packets ctx now txOk).2 = some f) :
    f.payload =
        flatPayload (tickAssembly ctx now).r0.included ++
          flatPayload (tickAssembly ctx now).r1.included ++
          flatPayload (tickAssembly ctx now).r2.included ++
          flatPayload (tickAssembly ctx now).r3.included ∧
      (tickAssembly ctx now).r0.included.Sublist (queueOf ctx 0) ∧
      (tickAssembly ctx now).r1.included.Sublist (queueOf ctx 1) ∧
      (tickAssembly ctx now).r2.included.Sublist (queueOf ctx 2) ∧
      (tickAssembly ctx now).r3.included.Sublist (queueOf ctx 3) := by
  obtain ⟨hfeq, hpos⟩ := process_packets_some ctx now txOk f hf
  refine ⟨?_, ?_, ?_, ?_, ?_⟩
  · rw [hfeq]
    have hlen := tickAssembly_buf_length ctx now
    have hbuf := tickAssembly_buf ctx now
    simp only
    rw [← hlen, List.take_length, hbuf]
    unfold AsmRes.includedAll
    simp [flatPayload_append, List.append_assoc]
  · simp only [tickAssembly]
    exact drainClass_included_sublist now (queueOf ctx 0) _ _
  · simp only [tickAssembly]
    exact drainClass_included_sublist now (queueOf ctx 1) _ _
  · simp only [tickAssembly]
    exact drainClass_included_sublist now (queueOf ctx 2) _ _
  · simp only [tickAssembly]
    exact drainClass_included_sublist now (queueOf ctx 3) _ _

theorem c4_payload_class_order_witness :
    frameA.payload =
        flatPayload (tickAssembly ctxA 2000).r0.included ++
          flatPayload (tickAssembly ctxA 2000).r1.included ++
          flatPayload (tickAssembly ctxA 2000).r2.included ++
          flatPayload (tickAssembly ctxA 2000).r3.included ∧
      (tickAssembly ctxA 2000).r0.included.Sublist (queueOf ctxA 0) ∧
      (tickAssembly ctxA 2000).r1.included.Sublist (queueOf ctxA 1) ∧
      (tickAssembly ctxA 2000).r2.included.Sublist (queueOf ctxA 2) ∧
      (tickAssembly ctxA 2000).r3.included.Sublist (queueOf ctxA 3) :=
  c4_payload_class_order ctxA 2000 true frameA (by decide)

/-- C5: on a tick where some queue is non-empty but the minimum
front-of-queue deadline (the value `find_earliest_deadline` computes) lies
strictly beyond `now + processing_threshold`, no frame is emitted and every
queue and every counter is unchanged (only `current_time_ms` is
refreshed). -/
theorem c5_no_emission_when_not_urgent (ctx : SchedulerCtx) (now : Nat)
    (txOk : Bool)
    (_hne : queueOf ctx 0 ≠ [] ∨ queueOf ctx 1 ≠ [] ∨ queueOf ctx 2 ≠ [] ∨
      queueOf ctx 3 ≠ [])
    (hfar : now + ctx.processing_threshold < find_earliest_deadline ctx) :
    process_packets ctx now txOk = ({ ctx with current_time_ms := now }, none) :=
  process_packets_early ctx now txOk
    (Or.inr (lt_of_le_of_lt (Nat.mod_le _ _) hfar))

theorem c5_no_emission_when_not_urgent_witness :
    process_packets ctxA 100 true = ({ ctxA with current_time_ms := 100 }, none) :=
  c5_no_emission_when_not_urgent ctxA 100 true (by decide) (by decide)

/-- C6, counterexample: with class 1 configured as DOUBLE (8-byte
elements), a submit of 8192 elements requests 65536 bytes, more than
MAX_PACKET_SIZE = 1400; yet `total_size` is a `uint16_t`, the product wraps
to 0, and the call is accepted and modifies the queue instead of being
rejected. -/
theorem c6_submit_oversize_counterexample :
    (scheduler_submit_packet ctx6 0 [] 8192 0).1 = EspErr.ok ∧
      (scheduler_submit_packet ctx6 0 [] 8192 0).2 ≠ ctx6 ∧
      MAX_PACKET_SIZE < typeSize DataType.f64 * 8192 := by
  decide

/-- C6, amended: a submit whose truncated byte size
`(width × count) mod 2^16` exceeds 1400 is rejected with an invalid-argument
error and leaves the context unchanged (for `width × count < 65536` this is
exactly the original claim), and submission never creates a queued sample
whose stored payload size exceeds 1400 bytes. -/
theorem c6_submit_size_cap (ctx : SchedulerCtx) (c : Nat) (data : List Nat)
    (count : Nat) (now : Nat)
    (hold : ∀ q ∈ ctx.packet_queues, ∀ p ∈ q, p.size ≤ MAX_PACKET_SIZE) :
    (MAX_PACKET_SIZE < typeSize (typeOf ctx c) * (count % U16_MOD) % U16_MOD →
        scheduler_submit_packet ctx c data count now = (.invalidArg, ctx)) ∧
      (∀ q ∈ (scheduler_submit_packet ctx c data count now).2.packet_queues,
        ∀ p ∈ q, p.size ≤ MAX_PACKET_SIZE) := by
  constructor
  · intro hbig
    have hbig2 : MAX_PACKET_SIZE < typeSize (typeOf ctx c) * count % U16_MOD := by
      simpa using hbig
    unfold scheduler_submit_packet
    by_cases hc : MAX_CLASSES ≤ c
    · simp [hc]
    · simp [hc, hbig2]
  · by_cases hc : MAX_CLASSES ≤ c
    · unfold scheduler_submit_packet
      simp only [if_pos hc]
      exact hold
    · by_cases hbig : MAX_PACKET_SIZE <
          typeSize (typeOf ctx c) * (count % U16_MOD) % U16_MOD
      · unfold scheduler_submit_packet
        simp only [if_neg hc, if_pos hbig]
        exact hold
      · unfold scheduler_submit_packet queue_enqueue
        by_cases hfull : MAX_QUEUE_SIZE ≤ (queueOf ctx c).length
        · simp only [if_neg hc, if_neg hbig, if_pos hfull]
          exact hold
        · simp only [if_neg hc, if_neg hbig, if_neg hfull]
          intro q hq p hp
          rcases List.mem_or_eq_of_mem_set hq with hmem | heq
          · exact hold q hmem p hp
          · subst heq
            rcases List.mem_append.mp hp with hpq | hpnew
            · obtain ⟨q2, hq2, hpq2⟩ := mem_of_mem_queueOf ctx c p hpq
              exact hold q2 hq2 p hpq2
            · rw [List.mem_singleton.mp hpnew]
              exact Nat.le_of_not_lt hbig

theorem c6_submit_size_cap_witness :
    scheduler_submit_packet ctx6 0 [] 200 0 = (EspErr.invalidArg, ctx6) :=
  (c6_submit_size_cap ctx6 0 [] 200 0 (by decide)).1 (by decide)

/-- C7: on every tick, `packets_processed` grows by exactly the number of
deadline misses plus the number of samples included in the emitted frame
(zero when no frame is handed to transmission); the hypothesis that every
queued sample has at least one payload byte is the configuration invariant
(`packet_count` is clamped to [1, 200] by the terminal). -/
theorem c7_counter_accounting (ctx : SchedulerCtx) (now : Nat) (txOk : Bool)
    (hwf : ∀ q ∈ ctx.packet_queues, ∀ p ∈ q, 1 ≤ p.size) :
    (process_packets ctx now txOk).1.packets_processed =
      ctx.packets_processed +
        ((process_packets ctx now txOk).1.deadline_misses -
          ctx.deadline_misses) +
        (if ((process_packets ctx now txOk).2).isSome then
          (tickAssembly ctx now).incCount else 0) := by
  by_cases h1 : find_earliest_deadline ctx = UINT32_MAX
  · rw [process_packets_early ctx now txOk (Or.inl h1)]
    simp
  · by_cases h2 : (now + ctx.processing_threshold) % U32_MOD <
        find_earliest_deadline ctx
    · rw [process_packets_early ctx now txOk (Or.inr h2)]
      simp
    · obtain ⟨hp, hm⟩ := process_packets_counters ctx now txOk h1 h2
      by_cases h3 : 0 < MAX_TX_SIZE - (tickAssembly ctx now).r3.remaining
      · have hemit : ((process_packets ctx now txOk).2).isSome = true := by
          unfold process_packets
          cases txOk <;> simp [h1, h2, h3]
        rw [hp, hm, hemit]
        simp
      · have h0 : MAX_TX_SIZE - (tickAssembly ctx now).r3.remaining = 0 := by
          omega
        have hnone := process_packets_none_of_no_bytes ctx now txOk h0
        have hinc := includedAll_nil_of_no_bytes ctx now hwf h0
        rw [hp, hm, hnone, hinc]
        simp

theorem c7_counter_accounting_witness :
    (process_packets ctxB 2000 true).1.packets_processed =
      ctxB.packets_processed +
        ((process_packets ctxB 2000 true).1.deadline_misses -
          ctxB.deadline_misses) +
        (if ((process_packets ctxB 2000 true).2).isSome then
          (tickAssembly ctxB 2000).incCount else 0) :=
  c7_counter_accounting ctxB 2000 true (by decide)

/-- C8: when the front sample of a class is strictly larger than the
remaining buffer space, the class loop stops before dequeuing it: the queue
is returned exactly as it was, in the same FIFO order, and nothing is
included, missed, or written. -/
theorem c8_oversize_front_not_dequeued (now : Nat) (p : QueuePacket)
    (rest : List QueuePacket) (rem : Nat) (buf : List Nat)
    (h : rem < p.size) :
    drainClass now (p :: rest) rem buf = ⟨[], [], p :: rest, rem, buf⟩ := by
  rw [drainClass_cons, if_pos h]

theorem c8_oversize_front_not_dequeued_witness :
    drainClass 0 [pktBig] 400 [] = ⟨[], [], [pktBig], 400, []⟩ :=
  c8_oversize_front_not_dequeued 0 pktBig [] 400 [] (by decide)

/-- C10: a submit with a class identifier at or beyond `MAX_CLASSES` is
rejected with an invalid-argument error and the scheduler context, its
queues and counters included, is unchanged. -/
theorem c10_invalid_class_rejected (ctx : SchedulerCtx) (class_id : Nat)
    (data : List Nat) (count : Nat) (now : Nat)
    (h : MAX_CLASSES ≤ class_id) :
    scheduler_submit_packet ctx class_id data count now =
      (EspErr.invalidArg, ctx) := by
  unfold scheduler_submit_packet
  rw [if_pos h]

theorem c10_invalid_class_rejected_witness :
    scheduler_submit_packet ctxA 4 [] 10 0 = (EspErr.invalidArg, ctxA) :=
  c10_invalid_class_rejected ctxA 4 [] 10 0 (by decide)

/-- C9, counterexample: when the AP is unknown the destination field
(offset 4) is broadcast, but the source field (offset 10) holds the
station's own MAC — here `[0, 1, 2, 3, 4, 5]` — not `FF:FF:FF:FF:FF:FF`,
so not all three address positions default to broadcast. -/
theorem c9_broadcast_counterexample :
    ((macHeader none [0, 1, 2, 3, 4, 5]).drop 10).take 6 = [0, 1, 2, 3, 4, 5] ∧
      ([0, 1, 2, 3, 4, 5] : List Nat) ≠ List.replicate 6 255 ∧
      ((macHeader none [0, 1, 2, 3, 4, 5]).drop 4).take 6 =
        List.replicate 6 255 := by
  decide

/-- C9, amended: when the AP's BSSID is unknown, the destination (offset 4)
and BSSID (offset 16) fields are broadcast and the source (offset 10) is
the station's own MAC; when the BSSID is known, destination and BSSID both
equal it and the source is still the station's own MAC. -/
theorem c9_mac_addresses (own bssid : List Nat) (hown : own.length = 6)
    (hb : bssid.length = 6) :
    (((macHeader none own).drop 4).take 6 = BROADCAST_MAC ∧
        ((macHeader none own).drop 10).take 6 = own ∧
        ((macHeader none own).drop 16).take 6 = BROADCAST_MAC) ∧
      (((macHeader (some bssid) own).drop 4).take 6 = bssid ∧
        ((macHeader (some bssid) own).drop 10).take 6 = own ∧
        ((macHeader (some bssid) own).drop 16).take 6 = bssid) := by
  have e1 : macHeader none own =
      8 :: 1 :: 0 :: 0 :: 255 :: 255 :: 255 :: 255 :: 255 :: 255 ::
        (own ++ [255, 255, 255, 255, 255, 255, 0, 0]) := by
    simp [macHeader, BROADCAST_MAC, List.append_assoc]
  have e2 : macHeader (some bssid) own =
      8 :: 1 :: 0 :: 0 :: (bssid ++ (own ++ (bssid ++ [0, 0]))) := by
    simp [macHeader, List.append_assoc]
  refine ⟨⟨?_, ?_, ?_⟩, ?_, ?_, ?_⟩
  · rw [e1]
    simp only [List.drop_succ_cons, List.drop_zero]
    simp [BROADCAST_MAC]
  · rw [e1]
    simp only [List.drop_succ_cons, List.drop_zero]
    exact List.take_left' hown
  · rw [e1]
    simp only [List.drop_succ_cons, List.drop_zero]
    rw [List.drop_left' hown]
    rfl
  · rw [e2]
    simp only [List.drop_succ_cons, List.drop_zero]
    exact List.take_left' hb
  · rw [e2]
    simp only [List.drop_succ_cons, List.drop_zero]
    rw [List.drop_left' hb]
    exact List.take_left' hown
  · rw [e2]
    simp only [List.drop_succ_cons, List.drop_zero]
    rw [show (bssid ++ (own ++ (bssid ++ [0, 0]))) =
        (bssid ++ own) ++ (bssid ++ [0, 0]) from by simp [List.append_assoc]]
    rw [List.drop_left' (by simp [hown, hb])]
    exact List.take_left' hb

theorem c9_mac_addresses_witness :
    (((macHeader none [1, 2, 3, 4, 5, 6]).drop 4).take 6 = BROADCAST_MAC ∧
        ((macHeader none [1, 2, 3, 4, 5, 6]).drop 10).take 6 =
          [1, 2, 3, 4, 5, 6] ∧
        ((macHeader none [1, 2, 3, 4, 5, 6]).drop 16).take 6 =
          BROADCAST_MAC) ∧
      (((macHeader (some [9, 8, 7, 6, 5, 4]) [1, 2, 3, 4, 5, 6]).drop 4).take 6 =
          [9, 8, 7, 6, 5, 4] ∧
        ((macHeader (some [9, 8, 7, 6, 5, 4]) [1, 2, 3, 4, 5, 6]).drop 10).take 6 =
          [1, 2, 3, 4, 5, 6] ∧
        ((macHeader (some [9, 8, 7, 6, 5, 4]) [1, 2, 3, 4, 5, 6]).drop 16).take 6 =
          [9, 8, 7, 6, 5, 4]) :=
  c9_mac_addresses [1, 2, 3, 4, 5, 6] [9, 8, 7, 6, 5, 4] (by decide) (by decide)

end PacketSched
